import Mathlib

/-!
# Verification of a decorator-based HTTP client (Go)

Shallow embedding of `src/main.go`: an `HTTPClient` transport abstraction,
two authentication middlewares (`BasicAuthMiddleware`, `APIKeyAuthMiddleware`),
middleware composition in `NewCustomClient`, and the `Get` facade.

Go strings are byte sequences; we model them as `List Nat` with each element a
byte (`< 256`).  Go's `(*http.Response, error)` pair is modelled as
`Option Response × Option GoError`, which keeps the `(nil, nil)` corner case
representable.  Header keys are stored in canonical MIME form (as Go's
`http.Header.Set` canonicalises them); this program only ever touches the
already-canonical key `"Authorization"`.
-/

namespace GoAuthClient

/-- A Go string: a sequence of bytes. -/
abbrev GoString := List Nat

/-- Byte sequence of an ASCII string literal (all literals used are ASCII,
where code point = byte). -/
def str (s : String) : GoString := s.data.map Char.toNat

/-! ## base64 (Go `encoding/base64` StdEncoding), used by `req.SetBasicAuth` -/

/-- The standard base64 alphabet: index `n < 64` to ASCII code. -/
def b64char (n : Nat) : Nat :=
  if n < 26 then 65 + n
  else if n < 52 then 97 + (n - 26)
  else if n < 62 then 48 + (n - 52)
  else if n = 62 then 43
  else 47

/-- Inverse of the base64 alphabet: ASCII code to index. -/
def b64index (c : Nat) : Option Nat :=
  if 65 ≤ c ∧ c ≤ 90 then some (c - 65)
  else if 97 ≤ c ∧ c ≤ 122 then some (c - 97 + 26)
  else if 48 ≤ c ∧ c ≤ 57 then some (c - 48 + 52)
  else if c = 43 then some 62
  else if c = 47 then some 63
  else none

/-- Go `base64.StdEncoding.EncodeToString`: 3 input bytes become 4 alphabet
characters; a final 1- or 2-byte group is padded with `'='` (61). -/
def base64encode : List Nat → List Nat
  | [] => []
  | [a] => [b64char (a / 4), b64char (a % 4 * 16), 61, 61]
  | [a, b] => [b64char (a / 4), b64char (a % 4 * 16 + b / 16), b64char (b % 16 * 4), 61]
  | a :: b :: c :: rest =>
      b64char (a / 4) :: b64char (a % 4 * 16 + b / 16) ::
      b64char (b % 16 * 4 + c / 64) :: b64char (c % 64) :: base64encode rest

/-- Go `base64.StdEncoding.DecodeString`: groups of 4 characters; padding only
in the final group. -/
def base64decode : List Nat → Option (List Nat)
  | [] => some []
  | c1 :: c2 :: c3 :: c4 :: rest =>
    match b64index c1, b64index c2 with
    | some i1, some i2 =>
      if c3 = 61 then
        if c4 = 61 ∧ rest = [] then some [i1 * 4 + i2 / 16] else none
      else
        match b64index c3 with
        | some i3 =>
          if c4 = 61 then
            if rest = [] then some [i1 * 4 + i2 / 16, i2 % 16 * 16 + i3 / 4] else none
          else
            match b64index c4 with
            | some i4 =>
              (base64decode rest).map
                (fun ds => (i1 * 4 + i2 / 16) :: (i2 % 16 * 16 + i3 / 4) :: (i3 % 4 * 64 + i4) :: ds)
            | none => none
        | none => none
    | _, _ => none
  | _ => none

/-! ## Data model: errors, headers, requests, responses -/

/-- A Go `error` value as produced by this program: either an underlying
(base) error, or `fmt.Errorf("<prefix>%w", inner)`, whose `Error()` message is
the prefix followed by the inner message and whose `Unwrap` yields `inner`. -/
inductive GoError
  | base (msg : GoString)
  | wrap (pre : GoString) (inner : GoError)
deriving DecidableEq

/-- Go `err.Error()`. -/
def GoError.message : GoError → GoString
  | .base m => m
  | .wrap pre inner => pre ++ inner.message

/-- Go `errors.Unwrap` on errors built by `fmt.Errorf` with `%w`. -/
def GoError.unwrapErr : GoError → Option GoError
  | .base _ => none
  | .wrap _ inner => some inner

/-- Go `http.Header`: header name to value list.  Keys are stored in canonical
MIME form (Go's `Header.Set` canonicalises; `"Authorization"` is canonical). -/
abbrev Header := List (GoString × List GoString)

/-- Go `Header.Set(key, value)`: replace any existing values with the single
`value`. -/
def headerSet (h : Header) (key value : GoString) : Header :=
  (key, [value]) :: h.filter (fun p => decide (p.1 ≠ key))

/-- Go `Header.Get(key)`: first value for the key, if any. -/
def headerGet (h : Header) (key : GoString) : Option GoString :=
  match h.find? (fun p => decide (p.1 = key)) with
  | some (_, v :: _) => some v
  | _ => none

/-- A response body stream: the bytes it yields before reaching either EOF
(`readErr = none`) or a mid-read error (`readErr = some e`). -/
structure BodyStream where
  data : List Nat
  readErr : Option GoError
deriving DecidableEq

/-- Go `io.ReadAll`: all bytes read before EOF or the error, plus the error. -/
def readAll (b : BodyStream) : List Nat × Option GoError :=
  (b.data, b.readErr)

/-- A cancellation context; this program only threads it through. -/
abbrev Context := Nat

/-- Go `*http.Request` (the fields this program touches). -/
structure Request where
  method : GoString
  url : GoString
  header : Header
  body : Option BodyStream
  ctx : Context
deriving DecidableEq

/-- Go `*http.Response` (the fields this program touches). -/
structure Response where
  statusCode : Nat
  header : Header
  body : BodyStream
deriving DecidableEq

/-- Modelled from the spec: Go's `net/url` parser (not part of this
repository) rejects ASCII control characters; a URL free of them is
"well-formed" for this program's purposes. -/
def urlOK (u : GoString) : Bool :=
  u.all (fun b => decide (32 ≤ b ∧ b ≠ 127))

/-- Modelled from the spec: Go's `http.NewRequestWithContext(ctx, method, url,
nil)` (standard library, not part of this repository): fails with a
construction error when the URL is malformed, otherwise builds a request with
an empty header and nil body bound to `ctx`. -/
def NewRequestWithContext (ctx : Context) (method url : GoString) :
    Except GoError Request :=
  if urlOK url then
    .ok { method := method, url := url, header := [], body := none, ctx := ctx }
  else
    .error (.base (str "net/url: invalid control character in URL"))

/-! ## The program: transports, middlewares, client (`src/main.go`) -/

/-- Go's `HTTPClient` interface (`Do(req) (*http.Response, error)`); the
function-as-interface wrapper `HTTPClientFunc` collapses in the embedding.
The result pair keeps both components optional so the `(nil, nil)` corner is
representable. -/
abbrev HTTPClient := Request → Option Response × Option GoError

/-- Go's `Middleware` type. -/
abbrev Middleware := HTTPClient → HTTPClient

/-- Go `req.SetBasicAuth(username, password)`: sets header `Authorization` to
`"Basic " + base64(username + ":" + password)`. -/
def SetBasicAuth (req : Request) (username password : GoString) : Request :=
  { req with
    header := headerSet req.header (str "Authorization")
      (str "Basic " ++ base64encode (username ++ str ":" ++ password)) }

/-- `BasicAuthMiddleware` from `src/main.go`. -/
def BasicAuthMiddleware (username password : GoString) : Middleware :=
  fun client => fun req => client (SetBasicAuth req username password)

/-- Go `req.Header.Set("Authorization", "Bearer "+apiKey)` as a request
transformer. -/
def setBearer (req : Request) (apiKey : GoString) : Request :=
  { req with
    header := headerSet req.header (str "Authorization") (str "Bearer " ++ apiKey) }

/-- `APIKeyAuthMiddleware` from `src/main.go`. -/
def APIKeyAuthMiddleware (apiKey : GoString) : Middleware :=
  fun client => fun req => client (setBearer req apiKey)

/-- `CustomClient` from `src/main.go`. -/
structure CustomClient where
  httpClient : HTTPClient

/-- `NewCustomClient` from `src/main.go`: wraps the base client with each
middleware in list order. -/
def NewCustomClient (baseClient : HTTPClient) (middlewares : List Middleware) :
    CustomClient :=
  { httpClient := middlewares.foldl (fun client m => m client) baseClient }

/-- Outcome of `Get`: Go's `([]byte, error)` return, or a nil-pointer
dereference (run-time panic) when the transport returned `(nil, nil)` and
`resp.Body` was accessed. -/
inductive GetOutcome
  | ok (body : List Nat)
  | fail (e : GoError)
  | nilDeref
deriving DecidableEq

/-- `(*CustomClient).Get` from `src/main.go`, instrumented: the second
component counts how many times `resp.Body.Close()` runs (the `defer` placed
after a successful send runs exactly once, on every exit path). -/
def CustomClient.GetTraced (c : CustomClient) (ctx : Context) (url : GoString) :
    GetOutcome × Nat :=
  match NewRequestWithContext ctx (str "GET") url with
  | .error e => (.fail (.wrap (str "failed to create request: ") e), 0)
  | .ok req =>
    match c.httpClient req with
    | (_, some e) => (.fail (.wrap (str "request failed: ") e), 0)
    | (none, none) => (.nilDeref, 0)
    | (some resp, none) =>
      match readAll resp.body with
      | (_, some e) => (.fail (.wrap (str "failed to read response body: ") e), 1)
      | (bs, none) => (.ok bs, 1)

/-- `(*CustomClient).Get`: the `([]byte, error)` outcome. -/
def CustomClient.Get (c : CustomClient) (ctx : Context) (url : GoString) :
    GetOutcome :=
  (c.GetTraced ctx url).1

/-- The request `Get` builds for a well-formed URL: method GET, empty header,
nil body, bound to `ctx`. -/
def builtGet (ctx : Context) (url : GoString) : Request :=
  { method := str "GET", url := url, header := [], body := none, ctx := ctx }

/-- Modelled from the spec: the decoding direction of the basic-auth
convention (Go's `(*http.Request).BasicAuth`, standard library, not part of
this repository): split the credentials at the first colon. -/
def cutColon : List Nat → Option (GoString × GoString)
  | [] => none
  | b :: rest =>
    if b = 58 then some ([], rest)
    else (cutColon rest).map (fun p => (b :: p.1, p.2))

/-- Modelled from the spec: decoding an `Authorization` header value per the
basic-auth convention (Go's `(*http.Request).BasicAuth`): strip the
`"Basic "` prefix, base64-decode, split at the first colon. -/
def decodeBasicAuth (v : GoString) : Option (GoString × GoString) :=
  if v.take 6 = str "Basic " then
    match base64decode (v.drop 6) with
    | some bs => cutColon bs
    | none => none
  else none

/-! ## Concrete fixtures used by witnesses -/

/-- A concrete well-formed URL. -/
def url0 : GoString := str "https://example.com"

/-- A concrete transport-level error. -/
def errBoom : GoError := .base (str "boom")

/-- A concrete response: status 200, body `"hello"`, clean EOF. -/
def respHello : Response :=
  { statusCode := 200, header := [], body := { data := str "hello", readErr := none } }

/-- A concrete response whose body yields `"par"` and then errors mid-read. -/
def respPartial : Response :=
  { statusCode := 200, header := [], body := { data := str "par", readErr := some errBoom } }

/-- A transport that always succeeds with `respHello`. -/
def okClient : CustomClient := ⟨fun _ => (some respHello, none)⟩

/-- A transport that always fails with `errBoom`. -/
def failClient : CustomClient := ⟨fun _ => (none, some errBoom)⟩

/-- A transport whose response body errors mid-read. -/
def readErrClient : CustomClient := ⟨fun _ => (some respPartial, none)⟩

/-- A transport violating Go's `RoundTripper` contract: `(nil, nil)`. -/
def nilClient : CustomClient := ⟨fun _ => (none, none)⟩

/-- A concrete request. -/
def req0 : Request := builtGet 0 url0

/-! ## base64 lemmas -/

theorem b64index_b64char : ∀ n < 64, b64index (b64char n) = some n := by decide

theorem b64char_ne_pad : ∀ n < 64, b64char n ≠ 61 := by decide

/-- Decoding inverts encoding on byte sequences. -/
theorem base64decode_base64encode :
    ∀ l : List Nat, (∀ b ∈ l, b < 256) → base64decode (base64encode l) = some l := by
  intro l
  induction l using base64encode.induct with
  | case1 => intro _; simp [base64encode, base64decode]
  | case2 a =>
    intro h
    have ha : a < 256 := h a (by simp)
    have h1 : a / 4 < 64 := by omega
    have h2 : a % 4 * 16 < 64 := by omega
    simp only [base64encode, base64decode, b64index_b64char _ h1, b64index_b64char _ h2]
    simp [b64char_ne_pad _ h2]
    omega
  | case3 a b =>
    intro h
    have ha : a < 256 := h a (by simp)
    have hb : b < 256 := h b (by simp)
    have h1 : a / 4 < 64 := by omega
    have h2 : a % 4 * 16 + b / 16 < 64 := by omega
    have h3 : b % 16 * 4 < 64 := by omega
    simp only [base64encode, base64decode, b64index_b64char _ h1, b64index_b64char _ h2,
      b64index_b64char _ h3]
    simp [b64char_ne_pad _ h2, b64char_ne_pad _ h3]
    omega
  | case4 a b c rest ih =>
    intro h
    have ha : a < 256 := h a (by simp)
    have hb : b < 256 := h b (by simp)
    have hc : c < 256 := h c (by simp)
    have h1 : a / 4 < 64 := by omega
    have h2 : a % 4 * 16 + b / 16 < 64 := by omega
    have h3 : b % 16 * 4 + c / 64 < 64 := by omega
    have h4 : c % 64 < 64 := by omega
    have hrest : ∀ x ∈ rest, x < 256 := by
      intro x hx; exact h x (by simp [hx])
    simp only [base64encode, base64decode, b64index_b64char _ h1, b64index_b64char _ h2,
      b64index_b64char _ h3, b64index_b64char _ h4]
    have e1 : a / 4 * 4 + (a % 4 * 16 + b / 16) / 16 = a := by omega
    have e2 : (a % 4 * 16 + b / 16) % 16 * 16 + (b % 16 * 4 + c / 64) / 4 = b := by omega
    have e3 : (b % 16 * 4 + c / 64) % 4 * 64 + c % 64 = c := by omega
    simp [b64char_ne_pad _ h2, b64char_ne_pad _ h3, b64char_ne_pad _ h4, ih hrest, e1, e2, e3]

/-! ## Header and middleware lemmas -/

theorem headerGet_headerSet_self (h : Header) (k v : GoString) :
    headerGet (headerSet h k v) k = some v := by
  simp [headerGet, headerSet, List.find?]

theorem headerGet_headerSet_ne (h : Header) (k v k' : GoString) (hk : k' ≠ k) :
    headerGet (headerSet h k v) k' = headerGet h k' := by
  simp only [headerGet, headerSet]
  rw [List.find?_cons_of_neg _ (by simpa using fun e => hk e.symm)]
  induction h with
  | nil => simp
  | cons p t ih =>
    by_cases hp : p.1 = k
    · rw [List.filter_cons_of_neg (by simpa using hp)]
      rw [List.find?_cons_of_neg _ (by simp [hp]; exact fun e => hk e.symm)]
      exact ih
    · rw [List.filter_cons_of_pos (by simpa using hp)]
      by_cases hq : p.1 = k'
      · rw [List.find?_cons_of_pos _ (by simpa using hq),
          List.find?_cons_of_pos _ (by simpa using hq)]
      · rw [List.find?_cons_of_neg _ (by simpa using hq),
          List.find?_cons_of_neg _ (by simpa using hq)]
        exact ih

theorem headerSet_headerSet (h : Header) (k v w : GoString) :
    headerSet (headerSet h k w) k v = headerSet h k v := by
  simp only [headerSet]
  rw [List.filter_cons_of_neg (by simp)]
  rw [List.filter_filter]
  simp

theorem setBearer_setBearer (req : Request) (a k : GoString) :
    setBearer (setBearer req a) k = setBearer req k := by
  simp [setBearer, headerSet_headerSet]

theorem cutColon_append (u p : GoString) (hu : 58 ∉ u) :
    cutColon (u ++ 58 :: p) = some (u, p) := by
  induction u with
  | nil => simp [cutColon]
  | cons b t ih =>
    have hb : b ≠ 58 := fun e => hu (by simp [e])
    simp [cutColon, if_neg hb, ih (fun m => hu (List.mem_cons_of_mem _ m))]

theorem take_basic_prefix (x : List Nat) : (str "Basic " ++ x).take 6 = str "Basic " := by
  have h : (str "Basic ").length = 6 := by rfl
  rw [← h, List.take_left]

theorem drop_basic_prefix (x : List Nat) : (str "Basic " ++ x).drop 6 = x := by
  have h : (str "Basic ").length = 6 := by rfl
  rw [← h, List.drop_left]

/-- Decoding the header value built by `SetBasicAuth` recovers the pair, as
long as the username holds no colon and both are byte strings. -/
theorem decodeBasicAuth_encode (u p : GoString)
    (hu : ∀ b ∈ u, b < 256) (hp : ∀ b ∈ p, b < 256) (hcolon : 58 ∉ u) :
    decodeBasicAuth (str "Basic " ++ base64encode (u ++ str ":" ++ p)) = some (u, p) := by
  have hbytes : ∀ b ∈ u ++ str ":" ++ p, b < 256 := by
    intro b hb
    rcases List.mem_append.1 hb with hb' | hb'
    · rcases List.mem_append.1 hb' with h1 | h2
      · exact hu b h1
      · simp [str] at h2
        omega
    · exact hp b hb'
  have hsplit : u ++ str ":" ++ p = u ++ 58 :: p := by
    simp [str]
  simp only [decodeBasicAuth, take_basic_prefix, drop_basic_prefix, if_pos rfl,
    base64decode_base64encode _ hbytes]
  rw [hsplit] at *
  exact cutColon_append u p hcolon

/-! ## Middleware composition lemmas -/

/-- Applying the wrapped chain built from API-key middlewares: each wrapper
sets the bearer header, outermost (last-listed) first. -/
theorem foldl_apiKey (keys : List GoString) (t : HTTPClient) (req : Request) :
    ((keys.map APIKeyAuthMiddleware).foldl (fun client m => m client) t) req =
      t (keys.reverse.foldl setBearer req) := by
  induction keys generalizing t with
  | nil => rfl
  | cons k rest ih =>
    simp only [List.map_cons, List.foldl_cons, List.reverse_cons, List.foldl_append]
    rw [ih]
    rfl

theorem foldl_setBearer_absorb (xs : List GoString) (req : Request) (k : GoString) :
    setBearer (xs.foldl setBearer req) k = setBearer req k := by
  induction xs generalizing req with
  | nil => rfl
  | cons a rest ih =>
    simp only [List.foldl_cons]
    rw [ih (setBearer req a), setBearer_setBearer]

/-! ## `Get` behaviour lemmas -/

theorem getTraced_send_err (c : CustomClient) (ctx : Context) (url : GoString)
    (ro : Option Response) (e : GoError)
    (hurl : urlOK url = true)
    (hsend : c.httpClient (builtGet ctx url) = (ro, some e)) :
    c.GetTraced ctx url = (.fail (.wrap (str "request failed: ") e), 0) := by
  simp only [builtGet] at hsend
  simp only [CustomClient.GetTraced, NewRequestWithContext, hurl, if_true]
  rw [hsend]
  cases ro <;> rfl

theorem getTraced_nil_nil (c : CustomClient) (ctx : Context) (url : GoString)
    (hurl : urlOK url = true)
    (hsend : c.httpClient (builtGet ctx url) = (none, none)) :
    c.GetTraced ctx url = (.nilDeref, 0) := by
  simp only [builtGet] at hsend
  simp only [CustomClient.GetTraced, NewRequestWithContext, hurl, if_true]
  rw [hsend]

theorem getTraced_send_ok (c : CustomClient) (ctx : Context) (url : GoString)
    (resp : Response)
    (hurl : urlOK url = true)
    (hsend : c.httpClient (builtGet ctx url) = (some resp, none)) :
    c.GetTraced ctx url =
      (match resp.body.readErr with
       | some e => (.fail (.wrap (str "failed to read response body: ") e), 1)
       | none => (.ok resp.body.data, 1)) := by
  simp only [builtGet] at hsend
  simp only [CustomClient.GetTraced, NewRequestWithContext, hurl, if_true]
  rw [hsend]
  cases h : resp.body.readErr <;> simp [readAll, h]

/-- `Get` ends in the nil-dereference outcome exactly when the composed
transport answered `(nil, nil)` on the built request. -/
theorem get_nilDeref_iff (c : CustomClient) (ctx : Context) (url : GoString)
    (hurl : urlOK url = true) :
    c.Get ctx url = .nilDeref ↔ c.httpClient (builtGet ctx url) = (none, none) := by
  rcases hres : c.httpClient (builtGet ctx url) with ⟨ro, eo⟩
  cases eo with
  | some e =>
    have h := getTraced_send_err c ctx url ro e hurl hres
    simp [CustomClient.Get, h]
  | none =>
    cases ro with
    | none =>
      have h := getTraced_nil_nil c ctx url hurl hres
      simp [CustomClient.Get, h]
    | some resp =>
      have h := getTraced_send_ok c ctx url resp hurl hres
      simp only [CustomClient.Get, h]
      cases hr : resp.body.readErr <;> simp

/-! ## Claims -/

/-- C1: `NewCustomClient` holds the fold-left composition
`mN (m(N-1) (... (m1 base)))` of the middleware list over the base transport,
so the last-listed middleware is outermost and its request mutation executes
first; earlier-listed middlewares' mutations execute after it and can
overwrite the same header — with a chain of API-key middlewares the base
transport observes the first-listed key's `Authorization` value. -/
theorem newCustomClient_foldl_and_order (base : HTTPClient) (ms : List Middleware)
    (k : GoString) (keys : List GoString) (req : Request) :
    (NewCustomClient base ms).httpClient =
      ms.foldl (fun client m => m client) base ∧
    (NewCustomClient base ((k :: keys).map APIKeyAuthMiddleware)).httpClient req =
      base (setBearer req k) := by
  refine ⟨rfl, ?_⟩
  show ((((k :: keys).map APIKeyAuthMiddleware)).foldl (fun client m => m client) base) req =
    base (setBearer req k)
  rw [foldl_apiKey (k :: keys) base req]
  simp only [List.reverse_cons, List.foldl_append, List.foldl_cons, List.foldl_nil]
  rw [foldl_setBearer_absorb]

/-- C2 as stated is false: two distinct control-character-free pairs — one
with a colon in the username — produce the same `Authorization` header, so
decoding cannot recover the exact pair; the standard decoder returns the
other pair. -/
theorem basicAuth_decode_counterexample :
    (∀ b ∈ str "a:b", 32 ≤ b ∧ b < 256) ∧ (∀ b ∈ str "c", 32 ≤ b ∧ b < 256) ∧
    headerGet (SetBasicAuth req0 (str "a:b") (str "c")).header (str "Authorization") =
      headerGet (SetBasicAuth req0 (str "a") (str "b:c")).header (str "Authorization") ∧
    ((str "a:b", str "c") : GoString × GoString) ≠ (str "a", str "b:c") ∧
    decodeBasicAuth (str "Basic " ++ base64encode (str "a:b" ++ str ":" ++ str "c")) =
      some (str "a", str "b:c") := by
  decide

/-- C2 (amended): for all byte-string pairs without control characters whose
username holds no colon, `BasicAuthMiddleware` hands the inner transport the
request whose `Authorization` header is exactly `"Basic "` followed by
base64 of `username:password`, and decoding that value recovers the exact
pair. -/
theorem basicAuth_header_roundtrip (u p : GoString) (inner : HTTPClient) (req : Request)
    (hu : ∀ b ∈ u, 32 ≤ b ∧ b < 256 ∧ b ≠ 58)
    (hp : ∀ b ∈ p, 32 ≤ b ∧ b < 256) :
    BasicAuthMiddleware u p inner req = inner (SetBasicAuth req u p) ∧
    headerGet (SetBasicAuth req u p).header (str "Authorization") =
      some (str "Basic " ++ base64encode (u ++ str ":" ++ p)) ∧
    decodeBasicAuth (str "Basic " ++ base64encode (u ++ str ":" ++ p)) = some (u, p) := by
  refine ⟨rfl, ?_, ?_⟩
  · simp [SetBasicAuth, headerGet_headerSet_self]
  · exact decodeBasicAuth_encode u p (fun b hb => (hu b hb).2.1) (fun b hb => (hp b hb).2)
      (fun m => (hu 58 m).2.2 rfl)

/-- Witness for the amended C2 at `("user", "pass")`. -/
theorem basicAuth_header_roundtrip_witness :
    decodeBasicAuth (str "Basic " ++ base64encode (str "user" ++ str ":" ++ str "pass")) =
      some (str "user", str "pass") :=
  (basicAuth_header_roundtrip (str "user") (str "pass") okClient.httpClient req0
    (by decide) (by decide)).2.2

/-- C3: `APIKeyAuthMiddleware` hands the inner transport the request whose
`Authorization` header is exactly `"Bearer "` followed by the key, nothing
more. -/
theorem apiKey_header_exact (apiKey : GoString) (inner : HTTPClient) (req : Request) :
    APIKeyAuthMiddleware apiKey inner req = inner (setBearer req apiKey) ∧
    headerGet (setBearer req apiKey).header (str "Authorization") =
      some (str "Bearer " ++ apiKey) :=
  ⟨rfl, by simp [setBearer, headerGet_headerSet_self]⟩

/-- C4: when the transport succeeds and the body reads to EOF without error,
`Get` on a well-formed URL returns exactly the body bytes and no error. -/
theorem get_success (c : CustomClient) (ctx : Context) (url : GoString) (resp : Response)
    (hurl : urlOK url = true)
    (hsend : c.httpClient (builtGet ctx url) = (some resp, none))
    (hread : resp.body.readErr = none) :
    c.Get ctx url = .ok resp.body.data := by
  simp [CustomClient.Get, getTraced_send_ok c ctx url resp hurl hsend, hread]

/-- Witness for C4: a transport answering status 200 with body `"hello"`. -/
theorem get_success_witness :
    urlOK url0 = true ∧ okClient.Get 0 url0 = .ok (str "hello") :=
  ⟨by decide, get_success okClient 0 url0 respHello (by decide) rfl rfl⟩

/-- C5: when the transport's send fails, `Get` returns no bytes and a
non-nil error: the transport's error wrapped unmodified (unwrapping returns
it) with a message containing `"request failed"`. -/
theorem get_send_error (c : CustomClient) (ctx : Context) (url : GoString)
    (ro : Option Response) (e : GoError)
    (hurl : urlOK url = true)
    (hsend : c.httpClient (builtGet ctx url) = (ro, some e)) :
    c.Get ctx url = .fail (.wrap (str "request failed: ") e) ∧
    List.IsInfix (str "request failed") (GoError.wrap (str "request failed: ") e).message ∧
    (GoError.wrap (str "request failed: ") e).unwrapErr = some e := by
  refine ⟨?_, ⟨[], str ": " ++ e.message, ?_⟩, rfl⟩
  · simp [CustomClient.Get, getTraced_send_err c ctx url ro e hurl hsend]
  · have hx : str "request failed" ++ str ": " = str "request failed: " := by decide
    simp [GoError.message, ← hx]

/-- Witness for C5: a transport failing with a concrete error. -/
theorem get_send_error_witness :
    failClient.Get 0 url0 = .fail (.wrap (str "request failed: ") errBoom) :=
  (get_send_error failClient 0 url0 none errBoom (by decide) rfl).1

/-- C6: with zero middlewares the client holds the base transport itself, and
its `Get` is the same function as `Get` on a client built directly from the
base transport. -/
theorem zero_middlewares_identity (base : HTTPClient) :
    (NewCustomClient base []).httpClient = base ∧
    ∀ ctx url, (NewCustomClient base []).Get ctx url = CustomClient.Get ⟨base⟩ ctx url :=
  ⟨rfl, fun _ _ => rfl⟩

/-- C7: each middleware changes only the `Authorization` header of the
request it passes inward — method, URL, body, context and every other header
are unchanged — and returns the inner transport's result verbatim. -/
theorem middlewares_frame (u p k : GoString) (inner : HTTPClient) (req : Request) :
    (BasicAuthMiddleware u p inner req = inner (SetBasicAuth req u p) ∧
     (SetBasicAuth req u p).method = req.method ∧
     (SetBasicAuth req u p).url = req.url ∧
     (SetBasicAuth req u p).body = req.body ∧
     (SetBasicAuth req u p).ctx = req.ctx ∧
     ∀ key, key ≠ str "Authorization" →
       headerGet (SetBasicAuth req u p).header key = headerGet req.header key) ∧
    (APIKeyAuthMiddleware k inner req = inner (setBearer req k) ∧
     (setBearer req k).method = req.method ∧
     (setBearer req k).url = req.url ∧
     (setBearer req k).body = req.body ∧
     (setBearer req k).ctx = req.ctx ∧
     ∀ key, key ≠ str "Authorization" →
       headerGet (setBearer req k).header key = headerGet req.header key) := by
  refine ⟨⟨rfl, rfl, rfl, rfl, rfl, fun key hk => ?_⟩,
    ⟨rfl, rfl, rfl, rfl, rfl, fun key hk => ?_⟩⟩
  · exact headerGet_headerSet_ne _ _ _ _ hk
  · exact headerGet_headerSet_ne _ _ _ _ hk

/-- C8: when the body stream errors mid-read, `Get` returns no bytes at all —
never the partial prefix the stream yielded — together with an error naming
the read stage. -/
theorem get_read_error (c : CustomClient) (ctx : Context) (url : GoString)
    (resp : Response) (e : GoError)
    (hurl : urlOK url = true)
    (hsend : c.httpClient (builtGet ctx url) = (some resp, none))
    (hread : resp.body.readErr = some e) :
    c.Get ctx url = .fail (.wrap (str "failed to read response body: ") e) ∧
    (∀ bs, c.Get ctx url ≠ .ok bs) ∧
    List.IsInfix (str "failed to read response body")
      (GoError.wrap (str "failed to read response body: ") e).message := by
  have h : c.Get ctx url = .fail (.wrap (str "failed to read response body: ") e) := by
    simp [CustomClient.Get, getTraced_send_ok c ctx url resp hurl hsend, hread]
  refine ⟨h, fun bs hb => by simp [h] at hb, ⟨[], str ": " ++ e.message, ?_⟩⟩
  have hx : str "failed to read response body" ++ str ": " =
      str "failed to read response body: " := by decide
  simp [GoError.message, ← hx]

/-- Witness for C8: a body stream that yields `"par"` and then errors; no
partial prefix is returned. -/
theorem get_read_error_witness :
    readErrClient.Get 0 url0 = .fail (.wrap (str "failed to read response body: ") errBoom) :=
  (get_read_error readErrClient 0 url0 respPartial errBoom (by decide) rfl rfl).1

/-- C9: whenever the send succeeds (a response with a nil error), `Get`
closes the response body exactly once, on the successful-read exit path and
on the failed-read exit path alike. -/
theorem get_closes_body_once (c : CustomClient) (ctx : Context) (url : GoString)
    (resp : Response)
    (hurl : urlOK url = true)
    (hsend : c.httpClient (builtGet ctx url) = (some resp, none)) :
    (c.GetTraced ctx url).2 = 1 := by
  rw [getTraced_send_ok c ctx url resp hurl hsend]
  split <;> rfl

/-- Witness for C9 on the failed-read exit path. -/
theorem get_closes_body_once_witness :
    (readErrClient.GetTraced 0 url0).2 = 1 :=
  get_closes_body_once readErrClient 0 url0 respPartial (by decide) rfl

/-- C10: `Get` reaches the nil-dereference outcome exactly on a transport
answer of `(nil, nil)`: such a transport makes `Get` dereference the nil
response, and under the precondition that the transport never answers
`(nil, nil)` that outcome is unreachable. -/
theorem get_nil_response_deref (c : CustomClient) (ctx : Context) (url : GoString)
    (hurl : urlOK url = true) :
    (c.httpClient (builtGet ctx url) = (none, none) → c.Get ctx url = .nilDeref) ∧
    ((∀ r, c.httpClient r ≠ (none, none)) → c.Get ctx url ≠ .nilDeref) := by
  constructor
  · intro hsend
    exact (get_nilDeref_iff c ctx url hurl).2 hsend
  · intro hno hd
    exact hno _ ((get_nilDeref_iff c ctx url hurl).1 hd)

/-- Witness for C10: the `(nil, nil)` transport drives `Get` into the nil
dereference. -/
theorem get_nil_response_deref_witness :
    nilClient.Get 0 url0 = .nilDeref :=
  (get_nil_response_deref nilClient 0 url0 (by decide)).1 rfl

end GoAuthClient
